import Mathlib

/-!
Shallow embedding of `src/gym_membership/pricing.py` (gym membership pricing
engine): catalog data model, selection validation, and the ordered arithmetic
pipeline (base total, group discount, premium surcharge, special-offer
discount).  Python `int` is modelled as `Int`, Python `//` (floor division) as
`Int.fdiv`, `dict` registries as `String → Option CatalogItem` lookup
functions, and `raise ValueError(msg)` as `Except.error msg`.
-/

namespace GymPricing

/-- Embeds the frozen dataclass `CatalogItem` of `pricing.py`. -/
structure CatalogItem where
  code : String
  name : String
  price_usd : Int
  available : Bool
  is_premium : Bool
deriving DecidableEq, Repr

/-- Embeds the frozen dataclass `CalculationResult` of `pricing.py`.
Python tuples of items/strings are modelled as lists. -/
structure CalculationResult where
  members : Int
  plan : CatalogItem
  addons : List CatalogItem
  premium_features : List CatalogItem
  base_total_usd : Int
  group_discount_usd : Int
  premium_surcharge_usd : Int
  special_offer_discount_usd : Int
  total_usd : Int
  messages : List String
deriving DecidableEq, Repr

/-- The `PLANS` dict of `pricing.py`, as its key-lookup function. -/
def PLANS (c : String) : Option CatalogItem :=
  if c = "basic" then some ⟨"basic", "Basic", 60, true, false⟩
  else if c = "premium" then some ⟨"premium", "Premium", 100, true, false⟩
  else if c = "family" then some ⟨"family", "Family", 160, true, false⟩
  else none

/-- The `ADDONS` dict of `pricing.py`, as its key-lookup function. -/
def ADDONS (c : String) : Option CatalogItem :=
  if c = "nutrition" then some ⟨"nutrition", "Nutrition plan", 20, true, false⟩
  else if c = "classes" then some ⟨"classes", "Group classes", 40, true, false⟩
  else if c = "pt" then some ⟨"pt", "Personal training sessions", 60, true, false⟩
  else none

/-- The `PREMIUM_FEATURES` dict of `pricing.py`, as its key-lookup function. -/
def PREMIUM_FEATURES (c : String) : Option CatalogItem :=
  if c = "exclusive" then some ⟨"exclusive", "Exclusive facilities access", 80, true, true⟩
  else if c = "specialized" then
    some ⟨"specialized", "Specialized training program", 120, true, true⟩
  else none

/-- The loop body of `_dedupe_preserve_order`: walk the list keeping the first
occurrence of each value, `seen` being the set of values already emitted. -/
def dedupe_go (seen : List String) : List String → List String
  | [] => []
  | v :: rest => if v ∈ seen then dedupe_go seen rest else v :: dedupe_go (v :: seen) rest

/-- Embeds `_dedupe_preserve_order` of `pricing.py`. -/
def dedupe_preserve_order (values : List String) : List String :=
  dedupe_go [] values

/-- Embeds `validate_selection` of `pricing.py`: the `errors` list accumulated
by the four successive checks (members, plan, add-ons, premium features), in
source order.  String interpolation `{code!r}` / `'{code}'` is rendered with
the same single quotes Python produces. -/
def validate_selection (members : Int) (plan_code : String)
    (addon_codes : List String) (premium_codes : List String) : List String :=
  let errors : List String := []
  let errors :=
    if members ≤ 0 then errors ++ ["members must be a positive integer."] else errors
  let errors :=
    match PLANS plan_code with
    | none => errors ++ ["unknown plan: \x27" ++ plan_code ++ "\x27."]
    | some plan =>
        if plan.available then errors
        else errors ++ ["plan \x27" ++ plan_code ++ "\x27 is not available."]
  let errors :=
    (dedupe_preserve_order addon_codes).foldl
      (fun es code =>
        match ADDONS code with
        | none => es ++ ["unknown add-on: \x27" ++ code ++ "\x27."]
        | some item =>
            if item.available then es
            else es ++ ["add-on \x27" ++ code ++ "\x27 is not available."])
      errors
  let errors :=
    (dedupe_preserve_order premium_codes).foldl
      (fun es code =>
        match PREMIUM_FEATURES code with
        | none => es ++ ["unknown premium feature: \x27" ++ code ++ "\x27."]
        | some item =>
            if item.available then es
            else es ++ ["premium feature \x27" ++ code ++ "\x27 is not available."])
      errors
  errors

/-- Embeds `_special_offer_discount` of `pricing.py`. -/
def special_offer_discount (total_usd : Int) : Int :=
  if total_usd > 400 then 50
  else if total_usd > 200 then 20
  else 0

/-- `tuple(REGISTRY[c] for c in codes)`: resolve codes against a registry.
(The Python `dict` access raises `KeyError` on a missing code; that path is
unreachable in `calculate_total` because validation has already checked every
code, so skipping missing codes is observationally equivalent there.) -/
def resolve_items (registry : String → Option CatalogItem) (codes : List String) :
    List CatalogItem :=
  codes.filterMap registry

/-- `sum(x.price_usd for x in items)`. -/
def sum_prices (items : List CatalogItem) : Int :=
  (items.map (fun i => i.price_usd)).sum

def group_note : String :=
  "Group discount applied: 10% off for 2+ members on the same plan."

def premium_note : String :=
  "Premium surcharge applied: +15% (premium features selected)."

def offer20_note : String :=
  "Special offer applied: -$20 (total exceeds $200)."

def offer50_note : String :=
  "Special offer applied: -$50 (total exceeds $400)."

def config_error_msg : String :=
  "calculated total is not positive; check pricing configuration."

/-- The straight-line success path of `calculate_total` (`pricing.py`
lines 138-178): per-member price, base total, group discount, premium
surcharge, special offer, messages, assembled into a `CalculationResult`.
`messages` is threaded exactly as the Python list mutated by `append`. -/
def calc_result (members : Int) (plan : CatalogItem)
    (addons premium_features : List CatalogItem) : CalculationResult :=
  let per_member := plan.price_usd + sum_prices addons + sum_prices premium_features
  let base_total := members * per_member
  let messages : List String := []
  let messages := if 2 ≤ members then messages ++ [group_note] else messages
  let group_discount := if 2 ≤ members then Int.fdiv (base_total * 10) 100 else 0
  let after_group := base_total - group_discount
  let messages := if premium_features.isEmpty then messages else messages ++ [premium_note]
  let premium_surcharge :=
    if premium_features.isEmpty then 0 else Int.fdiv (after_group * 15) 100
  let after_surcharge := after_group + premium_surcharge
  let special_offer := special_offer_discount after_surcharge
  let messages :=
    if special_offer = 20 then messages ++ [offer20_note]
    else if special_offer = 50 then messages ++ [offer50_note]
    else messages
  let total := after_surcharge - special_offer
  ⟨members, plan, addons, premium_features, base_total, group_discount,
   premium_surcharge, special_offer, total, messages⟩

/-- Embeds `calculate_total` of `pricing.py`: dedupe the code lists, validate
(raising the joined error list on failure), resolve the items, run the
pipeline, and reject a non-positive final total. -/
def calculate_total (members : Int) (plan_code : String)
    (addon_codes : List String) (premium_codes : List String) :
    Except String CalculationResult :=
  if validate_selection members plan_code (dedupe_preserve_order addon_codes)
      (dedupe_preserve_order premium_codes) = [] then
    match PLANS plan_code with
    | some plan =>
        let r := calc_result members plan
          (resolve_items ADDONS (dedupe_preserve_order addon_codes))
          (resolve_items PREMIUM_FEATURES (dedupe_preserve_order premium_codes))
        if r.total_usd ≤ 0 then Except.error config_error_msg
        else Except.ok r
    | none => Except.error ("KeyError: \x27" ++ plan_code ++ "\x27")
  else
    Except.error (String.intercalate "; "
      (validate_selection members plan_code (dedupe_preserve_order addon_codes)
        (dedupe_preserve_order premium_codes)))

/-! ### The validation checks as standalone blocks (used to state the order
of the collected violation messages) -/

/-- The members check of `validate_selection`, in isolation. -/
def members_errors (members : Int) : List String :=
  if members ≤ 0 then ["members must be a positive integer."] else []

/-- The plan check of `validate_selection`, in isolation. -/
def plan_errors (plan_code : String) : List String :=
  match PLANS plan_code with
  | none => ["unknown plan: \x27" ++ plan_code ++ "\x27."]
  | some plan =>
      if plan.available then []
      else ["plan \x27" ++ plan_code ++ "\x27 is not available."]

/-- The add-on check of `validate_selection` for one code, in isolation. -/
def addon_code_errors (code : String) : List String :=
  match ADDONS code with
  | none => ["unknown add-on: \x27" ++ code ++ "\x27."]
  | some item =>
      if item.available then []
      else ["add-on \x27" ++ code ++ "\x27 is not available."]

/-- The premium-feature check of `validate_selection` for one code. -/
def premium_code_errors (code : String) : List String :=
  match PREMIUM_FEATURES code with
  | none => ["unknown premium feature: \x27" ++ code ++ "\x27."]
  | some item =>
      if item.available then []
      else ["premium feature \x27" ++ code ++ "\x27 is not available."]

/-- All error messages a per-code check emits over a list of codes. -/
def collect_errors (f : String → List String) : List String → List String
  | [] => []
  | c :: rest => f c ++ collect_errors f rest

def res_basic1 : CalculationResult :=
  ⟨1, ⟨"basic", "Basic", 60, true, false⟩, [], [], 60, 0, 0, 0, 60, []⟩

end GymPricing

namespace GymPricing

/-! ### Basic helper lemmas -/

/-- Floor division by the positive literal 100 agrees with Euclidean division,
so `omega` can reason about it. -/
lemma fdiv100 (a : Int) : Int.fdiv a 100 = a / 100 :=
  Int.fdiv_eq_ediv a (by decide)

/-! ### Deduplication -/

lemma dedupe_go_not_mem_seen :
    ∀ (l seen : List String) (x : String), x ∈ dedupe_go seen l → x ∉ seen := by
  intro l
  induction l with
  | nil => intro seen x hx; simp [dedupe_go] at hx
  | cons v rest ih =>
      intro seen x hx hseen
      by_cases hv : v ∈ seen
      · rw [dedupe_go, if_pos hv] at hx
        exact ih seen x hx hseen
      · rw [dedupe_go, if_neg hv] at hx
        rcases List.mem_cons.mp hx with h | h
        · exact hv (h ▸ hseen)
        · exact ih (v :: seen) x h (List.mem_cons_of_mem v hseen)

lemma dedupe_go_nodup : ∀ (l seen : List String), (dedupe_go seen l).Nodup := by
  intro l
  induction l with
  | nil => intro seen; simp [dedupe_go]
  | cons v rest ih =>
      intro seen
      by_cases hv : v ∈ seen
      · rw [dedupe_go, if_pos hv]; exact ih seen
      · rw [dedupe_go, if_neg hv]
        refine List.nodup_cons.mpr ⟨?_, ih (v :: seen)⟩
        intro hmem
        exact dedupe_go_not_mem_seen rest (v :: seen) v hmem (List.mem_cons_self v seen)

lemma dedupe_go_eq_self :
    ∀ (l seen : List String), l.Nodup → (∀ x ∈ l, x ∉ seen) → dedupe_go seen l = l := by
  intro l
  induction l with
  | nil => intro seen _ _; rfl
  | cons v rest ih =>
      intro seen hnd hdisj
      have hv : v ∉ seen := hdisj v (List.mem_cons_self v rest)
      rw [dedupe_go, if_neg hv]
      congr 1
      refine ih (v :: seen) (List.nodup_cons.mp hnd).2 ?_
      intro x hx
      intro hmem
      rcases List.mem_cons.mp hmem with h | h
      · exact (List.nodup_cons.mp hnd).1 (h ▸ hx)
      · exact hdisj x (List.mem_cons_of_mem v hx) h

/-- Deduplication is idempotent. -/
lemma dedupe_idem (l : List String) :
    dedupe_preserve_order (dedupe_preserve_order l) = dedupe_preserve_order l := by
  unfold dedupe_preserve_order
  exact dedupe_go_eq_self _ [] (dedupe_go_nodup l []) (fun x _ h => (List.not_mem_nil x) h)

end GymPricing

namespace GymPricing

/-! ### `validate_selection` as the concatenation of its four blocks -/

lemma foldl_error_step (f : String → List String) (step : List String → String → List String)
    (hstep : ∀ es c, step es c = es ++ f c) :
    ∀ (l init : List String), l.foldl step init = init ++ collect_errors f l := by
  intro l
  induction l with
  | nil => intro init; simp [collect_errors]
  | cons c rest ih =>
      intro init
      rw [List.foldl_cons, hstep, ih, collect_errors, List.append_assoc]

/-- `validate_selection` is the concatenation of its four blocks: members
message first, then plan message, then one block per deduplicated add-on code
in first-occurrence order, then the same for premium-feature codes. -/
lemma validate_selection_decomp (m : Int) (p : String) (ac pc : List String) :
    validate_selection m p ac pc =
      members_errors m ++ plan_errors p
        ++ collect_errors addon_code_errors (dedupe_preserve_order ac)
        ++ collect_errors premium_code_errors (dedupe_preserve_order pc) := by
  simp only [validate_selection]
  rw [foldl_error_step premium_code_errors _ (fun es c => by
        unfold premium_code_errors
        cases h : PREMIUM_FEATURES c with
        | none => simp
        | some item => by_cases ha : item.available <;> simp [ha])]
  rw [foldl_error_step addon_code_errors _ (fun es c => by
        unfold addon_code_errors
        cases h : ADDONS c with
        | none => simp
        | some item => by_cases ha : item.available <;> simp [ha])]
  unfold members_errors plan_errors
  cases h : PLANS p with
  | none => by_cases hm : m ≤ 0 <;> simp [hm, List.append_assoc]
  | some plan =>
      by_cases hm : m ≤ 0 <;> by_cases ha : plan.available <;>
        simp [hm, ha, List.append_assoc]

/-- Validating the deduplicated code lists is the same as validating the raw
lists (the validator deduplicates internally, and deduplication is
idempotent). -/
lemma validate_dedupe (m : Int) (p : String) (ac pc : List String) :
    validate_selection m p (dedupe_preserve_order ac) (dedupe_preserve_order pc) =
      validate_selection m p ac pc := by
  rw [validate_selection_decomp, validate_selection_decomp, dedupe_idem, dedupe_idem]

end GymPricing

namespace GymPricing

/-! ### Consequences of an empty error list -/

lemma members_errors_nil {m : Int} (h : members_errors m = []) : 1 ≤ m := by
  by_cases hc : m ≤ 0
  · rw [members_errors, if_pos hc] at h; simp at h
  · omega

lemma plan_errors_nil {p : String} (h : plan_errors p = []) :
    ∃ plan, PLANS p = some plan ∧ plan.available = true := by
  unfold plan_errors at h
  cases hpl : PLANS p with
  | none => rw [hpl] at h; simp at h
  | some plan =>
      simp only [hpl] at h
      split_ifs at h with ha
      exact ⟨plan, rfl, ha⟩

lemma collect_errors_nil {f : String → List String} :
    ∀ {l : List String}, collect_errors f l = [] → ∀ c ∈ l, f c = [] := by
  intro l
  induction l with
  | nil => intro _ c hc; simp at hc
  | cons v rest ih =>
      intro h c hc
      rw [collect_errors] at h
      rcases List.append_eq_nil.mp h with ⟨h1, h2⟩
      rcases List.mem_cons.mp hc with rfl | hc
      · exact h1
      · exact ih h2 c hc

lemma addon_code_errors_nil {c : String} (h : addon_code_errors c = []) :
    ∃ i, ADDONS c = some i ∧ i.available = true := by
  unfold addon_code_errors at h
  cases hc : ADDONS c with
  | none => rw [hc] at h; simp at h
  | some i =>
      simp only [hc] at h
      split_ifs at h with ha
      exact ⟨i, rfl, ha⟩

lemma premium_code_errors_nil {c : String} (h : premium_code_errors c = []) :
    ∃ i, PREMIUM_FEATURES c = some i ∧ i.available = true := by
  unfold premium_code_errors at h
  cases hc : PREMIUM_FEATURES c with
  | none => rw [hc] at h; simp at h
  | some i =>
      simp only [hc] at h
      split_ifs at h with ha
      exact ⟨i, rfl, ha⟩

/-- Splitting `validate_selection … = []` into the four per-block facts. -/
lemma validate_nil_facts {m : Int} {p : String} {ac pc : List String}
    (h : validate_selection m p ac pc = []) :
    1 ≤ m ∧ (∃ plan, PLANS p = some plan ∧ plan.available = true) ∧
      (∀ c ∈ dedupe_preserve_order ac, ∃ i, ADDONS c = some i ∧ i.available = true) ∧
      (∀ c ∈ dedupe_preserve_order pc, ∃ i, PREMIUM_FEATURES c = some i ∧ i.available = true) := by
  rw [validate_selection_decomp] at h
  rcases List.append_eq_nil.mp h with ⟨h123, h4⟩
  rcases List.append_eq_nil.mp h123 with ⟨h12, h3⟩
  rcases List.append_eq_nil.mp h12 with ⟨h1, h2⟩
  exact ⟨members_errors_nil h1, plan_errors_nil h2,
    fun c hc => addon_code_errors_nil (collect_errors_nil h3 c hc),
    fun c hc => premium_code_errors_nil (collect_errors_nil h4 c hc)⟩

/-! ### Catalog price facts -/

lemma PLANS_price {c : String} {i : CatalogItem} (h : PLANS c = some i) :
    60 ≤ i.price_usd := by
  unfold PLANS at h
  split_ifs at h <;> (cases h; decide)

lemma ADDONS_price {c : String} {i : CatalogItem} (h : ADDONS c = some i) :
    0 ≤ i.price_usd := by
  unfold ADDONS at h
  split_ifs at h <;> (cases h; decide)

lemma PREMIUM_price {c : String} {i : CatalogItem} (h : PREMIUM_FEATURES c = some i) :
    80 ≤ i.price_usd := by
  unfold PREMIUM_FEATURES at h
  split_ifs at h <;> (cases h; decide)

/-! ### Resolution and price sums -/

lemma resolve_items_length {reg : String → Option CatalogItem} :
    ∀ {codes : List String}, (∀ c ∈ codes, ∃ i, reg c = some i ∧ i.available = true) →
      (resolve_items reg codes).length = codes.length := by
  intro codes
  induction codes with
  | nil => intro _; rfl
  | cons c rest ih =>
      intro h
      obtain ⟨i, hi, _⟩ := h c (List.mem_cons_self c rest)
      have hrest := ih (fun d hd => h d (List.mem_cons_of_mem c hd))
      simp [resolve_items, List.filterMap_cons, hi] at hrest ⊢
      exact hrest

lemma resolve_items_empty_iff {reg : String → Option CatalogItem} {codes : List String}
    (h : ∀ c ∈ codes, ∃ i, reg c = some i ∧ i.available = true) :
    ((resolve_items reg codes).isEmpty = true) ↔ codes = [] := by
  rw [List.isEmpty_iff, ← List.length_eq_zero, resolve_items_length h, List.length_eq_zero]

lemma resolve_items_price_lb {reg : String → Option CatalogItem} {lb : Int}
    (hreg : ∀ (c : String) (i : CatalogItem), reg c = some i → lb ≤ i.price_usd)
    {codes : List String} :
    ∀ i ∈ resolve_items reg codes, lb ≤ i.price_usd := by
  intro i hi
  rcases List.mem_filterMap.mp hi with ⟨c, _, hc⟩
  exact hreg c i hc

lemma sum_prices_nonneg {items : List CatalogItem}
    (h : ∀ i ∈ items, 0 ≤ i.price_usd) : 0 ≤ sum_prices items := by
  unfold sum_prices
  apply List.sum_nonneg
  intro x hx
  rcases List.mem_map.mp hx with ⟨i, hi, rfl⟩
  exact h i hi

lemma sum_prices_lb_of_ne_nil {items : List CatalogItem} {lb : Int} (h0 : 0 ≤ lb)
    (h : ∀ i ∈ items, lb ≤ i.price_usd) (hne : items ≠ []) : lb ≤ sum_prices items := by
  cases items with
  | nil => exact absurd rfl hne
  | cons i rest =>
      have hi : lb ≤ i.price_usd := h i (List.mem_cons_self i rest)
      have hrest : 0 ≤ sum_prices rest :=
        sum_prices_nonneg (fun j hj => le_trans h0 (h j (List.mem_cons_of_mem i hj)))
      unfold sum_prices at hrest ⊢
      simp only [List.map_cons, List.sum_cons]
      omega

end GymPricing

namespace GymPricing

/-! ### Field values of `calc_result` -/

lemma calc_result_members (m : Int) (plan : CatalogItem) (a q : List CatalogItem) :
    (calc_result m plan a q).members = m := rfl

lemma calc_result_plan (m : Int) (plan : CatalogItem) (a q : List CatalogItem) :
    (calc_result m plan a q).plan = plan := rfl

lemma calc_result_addons (m : Int) (plan : CatalogItem) (a q : List CatalogItem) :
    (calc_result m plan a q).addons = a := rfl

lemma calc_result_premiums (m : Int) (plan : CatalogItem) (a q : List CatalogItem) :
    (calc_result m plan a q).premium_features = q := rfl

lemma calc_result_base (m : Int) (plan : CatalogItem) (a q : List CatalogItem) :
    (calc_result m plan a q).base_total_usd =
      m * (plan.price_usd + sum_prices a + sum_prices q) := rfl

lemma calc_result_group (m : Int) (plan : CatalogItem) (a q : List CatalogItem) :
    (calc_result m plan a q).group_discount_usd =
      (if 2 ≤ m then Int.fdiv ((calc_result m plan a q).base_total_usd * 10) 100 else 0) := rfl

lemma calc_result_surcharge (m : Int) (plan : CatalogItem) (a q : List CatalogItem) :
    (calc_result m plan a q).premium_surcharge_usd =
      (if q.isEmpty then 0
       else Int.fdiv
        (((calc_result m plan a q).base_total_usd
          - (calc_result m plan a q).group_discount_usd) * 15) 100) := rfl

lemma calc_result_special (m : Int) (plan : CatalogItem) (a q : List CatalogItem) :
    (calc_result m plan a q).special_offer_discount_usd =
      special_offer_discount
        ((calc_result m plan a q).base_total_usd - (calc_result m plan a q).group_discount_usd
          + (calc_result m plan a q).premium_surcharge_usd) := rfl

lemma calc_result_total (m : Int) (plan : CatalogItem) (a q : List CatalogItem) :
    (calc_result m plan a q).total_usd =
      (calc_result m plan a q).base_total_usd - (calc_result m plan a q).group_discount_usd
        + (calc_result m plan a q).premium_surcharge_usd
        - (calc_result m plan a q).special_offer_discount_usd := rfl

lemma messages_assembly (c1 : Prop) [Decidable c1] (e : Bool) (d : Int) :
    (let messages : List String := []
     let messages := if c1 then messages ++ [group_note] else messages
     let messages := if e then messages else messages ++ [premium_note]
     let messages :=
       if d = 20 then messages ++ [offer20_note]
       else if d = 50 then messages ++ [offer50_note]
       else messages
     messages) =
      (if c1 then [group_note] else []) ++ (if e then [] else [premium_note])
        ++ (if d = 20 then [offer20_note] else if d = 50 then [offer50_note] else []) := by
  simp only []
  split_ifs <;> simp

lemma calc_result_messages (m : Int) (plan : CatalogItem) (a q : List CatalogItem) :
    (calc_result m plan a q).messages =
      (if 2 ≤ m then [group_note] else [])
        ++ (if q.isEmpty then [] else [premium_note])
        ++ (if (calc_result m plan a q).special_offer_discount_usd = 20 then [offer20_note]
            else if (calc_result m plan a q).special_offer_discount_usd = 50 then [offer50_note]
            else []) :=
  messages_assembly (2 ≤ m) q.isEmpty (calc_result m plan a q).special_offer_discount_usd

/-! ### Arithmetic bounds on the pipeline -/

lemma base_total_lb {m per lb : Int} (h0 : 0 ≤ lb) (hm : 1 ≤ m) (hper : lb ≤ per) :
    lb ≤ m * per :=
  le_trans hper (le_mul_of_one_le_left (le_trans h0 hper) hm)

lemma base_total_lb2 {m per lb : Int} (h0 : 0 ≤ lb) (hm : 2 ≤ m) (hper : lb ≤ per) :
    2 * lb ≤ m * per :=
  mul_le_mul hm hper h0 (by omega)

lemma total_formula_pos {m b : Int} (hb : 60 ≤ b) (e : Bool) :
    1 ≤ (b - (if 2 ≤ m then Int.fdiv (b * 10) 100 else 0)
          + (if e then 0
             else Int.fdiv ((b - (if 2 ≤ m then Int.fdiv (b * 10) 100 else 0)) * 15) 100))
        - special_offer_discount
            (b - (if 2 ≤ m then Int.fdiv (b * 10) 100 else 0)
              + (if e then 0
                 else Int.fdiv
                  ((b - (if 2 ≤ m then Int.fdiv (b * 10) 100 else 0)) * 15) 100)) := by
  simp only [fdiv100, special_offer_discount]
  split_ifs <;> omega

/-- Under the validated hypotheses every successful pipeline run has a
positive final total. -/
lemma calc_result_total_pos {m : Int} {plan : CatalogItem} {a q : List CatalogItem}
    (hm : 1 ≤ m) (hp : 60 ≤ plan.price_usd) (ha : 0 ≤ sum_prices a)
    (hq : 0 ≤ sum_prices q) :
    1 ≤ (calc_result m plan a q).total_usd := by
  have hb : 60 ≤ m * (plan.price_usd + sum_prices a + sum_prices q) :=
    base_total_lb (by omega) hm (by omega)
  exact total_formula_pos hb q.isEmpty

end GymPricing

namespace GymPricing

/-! ### The master success and failure lemmas for `calculate_total` -/

lemma addons_sum_nonneg (codes : List String) :
    0 ≤ sum_prices (resolve_items ADDONS codes) :=
  sum_prices_nonneg (resolve_items_price_lb (fun _ _ h => ADDONS_price h))

lemma prems_sum_nonneg (codes : List String) :
    0 ≤ sum_prices (resolve_items PREMIUM_FEATURES codes) :=
  sum_prices_nonneg (fun i hi =>
    le_trans (by omega) (resolve_items_price_lb (fun _ _ h => PREMIUM_price h) i hi))

/-- On a selection that passes validation, `calculate_total` succeeds and
returns exactly the pipeline result for the resolved plan and items. -/
lemma calculate_total_ok_of_valid {m : Int} {p : String} {ac pc : List String}
    (h : validate_selection m p ac pc = []) :
    ∃ plan, PLANS p = some plan ∧ plan.available = true ∧
      calculate_total m p ac pc =
        Except.ok (calc_result m plan
          (resolve_items ADDONS (dedupe_preserve_order ac))
          (resolve_items PREMIUM_FEATURES (dedupe_preserve_order pc))) := by
  obtain ⟨hm, ⟨plan, hpl, hav⟩, _, _⟩ := validate_nil_facts h
  have htot : 1 ≤ (calc_result m plan
      (resolve_items ADDONS (dedupe_preserve_order ac))
      (resolve_items PREMIUM_FEATURES (dedupe_preserve_order pc))).total_usd :=
    calc_result_total_pos hm (PLANS_price hpl) (addons_sum_nonneg _) (prems_sum_nonneg _)
  refine ⟨plan, hpl, hav, ?_⟩
  unfold calculate_total
  rw [validate_dedupe, if_pos h, hpl]
  dsimp only
  rw [if_neg (by omega)]

/-- On a selection that fails validation, `calculate_total` fails with the
violation messages joined by `"; "`. -/
lemma calculate_total_error_of_invalid {m : Int} {p : String} {ac pc : List String}
    (h : validate_selection m p ac pc ≠ []) :
    calculate_total m p ac pc =
      Except.error (String.intercalate "; " (validate_selection m p ac pc)) := by
  unfold calculate_total
  rw [validate_dedupe, if_neg h]

/-- Inversion: a successful `calculate_total` call comes from a selection that
passed validation, and its result is the pipeline result. -/
lemma calculate_total_ok_inv {m : Int} {p : String} {ac pc : List String}
    {r : CalculationResult} (h : calculate_total m p ac pc = Except.ok r) :
    validate_selection m p ac pc = [] ∧
      ∃ plan, PLANS p = some plan ∧
        r = calc_result m plan
          (resolve_items ADDONS (dedupe_preserve_order ac))
          (resolve_items PREMIUM_FEATURES (dedupe_preserve_order pc)) := by
  by_cases hv : validate_selection m p ac pc = []
  · obtain ⟨plan, hpl, _, heq⟩ := calculate_total_ok_of_valid hv
    rw [heq] at h
    injection h with h
    exact ⟨hv, plan, hpl, h.symm⟩
  · rw [calculate_total_error_of_invalid hv] at h
    cases h

end GymPricing

namespace GymPricing

/-! ### Sign and positivity facts about the pipeline fields -/

lemma special_offer_discount_cases (t : Int) :
    special_offer_discount t = 0 ∨ special_offer_discount t = 20 ∨
      special_offer_discount t = 50 := by
  unfold special_offer_discount
  split_ifs <;> simp

lemma calc_result_nonneg {m : Int} {plan : CatalogItem} {a q : List CatalogItem}
    (hm : 1 ≤ m) (hp : 60 ≤ plan.price_usd) (ha : 0 ≤ sum_prices a)
    (hq : 0 ≤ sum_prices q) :
    0 ≤ (calc_result m plan a q).base_total_usd ∧
      0 ≤ (calc_result m plan a q).group_discount_usd ∧
      0 ≤ (calc_result m plan a q).premium_surcharge_usd ∧
      0 ≤ (calc_result m plan a q).special_offer_discount_usd := by
  have hb : 60 ≤ m * (plan.price_usd + sum_prices a + sum_prices q) :=
    base_total_lb (by omega) hm (by omega)
  simp only [calc_result_special, calc_result_surcharge, calc_result_group, calc_result_base,
    special_offer_discount, fdiv100]
  refine ⟨by omega, ?_, ?_, ?_⟩ <;> split_ifs <;> omega

lemma calc_result_group_pos {m : Int} {plan : CatalogItem} {a q : List CatalogItem}
    (hm : 2 ≤ m) (hp : 60 ≤ plan.price_usd) (ha : 0 ≤ sum_prices a)
    (hq : 0 ≤ sum_prices q) :
    1 ≤ (calc_result m plan a q).group_discount_usd := by
  have hb : 120 ≤ m * (plan.price_usd + sum_prices a + sum_prices q) := by
    have h2 : 2 * 60 ≤ m * (plan.price_usd + sum_prices a + sum_prices q) :=
      base_total_lb2 (by omega) hm (by omega)
    omega
  simp only [calc_result_group, calc_result_base, fdiv100]
  rw [if_pos hm]
  omega

lemma calc_result_surcharge_pos {m : Int} {plan : CatalogItem} {a q : List CatalogItem}
    (hm : 1 ≤ m) (hp : 60 ≤ plan.price_usd) (ha : 0 ≤ sum_prices a)
    (hq80 : 80 ≤ sum_prices q) (hne : q.isEmpty = false) :
    1 ≤ (calc_result m plan a q).premium_surcharge_usd := by
  have hb : 140 ≤ m * (plan.price_usd + sum_prices a + sum_prices q) :=
    base_total_lb (by omega) hm (by omega)
  rw [calc_result_surcharge, if_neg (by simp [hne])]
  simp only [calc_result_group, calc_result_base, fdiv100]
  split_ifs <;> omega

end GymPricing

namespace GymPricing

/-! ### Claim theorems -/

/-- C2: The special-offer discount is a step function of the after-surcharge
total with strict greater-than thresholds: 50 above 400, 20 above 200 (and at
most 400), 0 at or below 200; in particular 200 ↦ 0, 201 ↦ 20, 400 ↦ 20,
401 ↦ 50. -/
theorem special_offer_step :
    (∀ t : Int,
      (special_offer_discount t = 50 ↔ 400 < t) ∧
      (special_offer_discount t = 20 ↔ (200 < t ∧ t ≤ 400)) ∧
      (special_offer_discount t = 0 ↔ t ≤ 200)) ∧
    special_offer_discount 200 = 0 ∧ special_offer_discount 201 = 20 ∧
    special_offer_discount 400 = 20 ∧ special_offer_discount 401 = 50 := by
  refine ⟨fun t => ?_, by decide, by decide, by decide, by decide⟩
  unfold special_offer_discount
  split_ifs <;> refine ⟨?_, ?_, ?_⟩ <;> constructor <;> intro h <;> omega

/-- C5: Whenever validation fails, `calculate_total` fails with the
concatenation of all collected violation messages joined by `"; "`. -/
theorem invalid_selection_error_joined (m : Int) (p : String) (ac pc : List String)
    (h : validate_selection m p ac pc ≠ []) :
    calculate_total m p ac pc =
      Except.error (String.intercalate "; " (validate_selection m p ac pc)) :=
  calculate_total_error_of_invalid h

/-- Witness for C5 at `members = 0`, `plan_code = "gold"`: both violations are
collected and reported in one joined message. -/
theorem invalid_selection_error_joined_witness :
    validate_selection 0 "gold" [] [] ≠ [] ∧
      calculate_total 0 "gold" [] [] =
        Except.error ("members must be a positive integer.; unknown plan: \x27gold\x27.") :=
  ⟨by decide, by rw [invalid_selection_error_joined 0 "gold" [] [] (by decide)]; rfl⟩

/-- C6: `calculate_total` is invariant under pre-deduplicating the add-on and
premium code lists; in particular `["pt", "pt"]` prices exactly like
`["pt"]`. -/
theorem calculate_total_dedupe_invariant :
    (∀ (m : Int) (p : String) (ac pc : List String),
      calculate_total m p (dedupe_preserve_order ac) (dedupe_preserve_order pc) =
        calculate_total m p ac pc) ∧
    calculate_total 3 "basic" ["pt", "pt"] [] = calculate_total 3 "basic" ["pt"] [] := by
  constructor
  · intro m p ac pc
    unfold calculate_total
    rw [dedupe_idem, dedupe_idem]
  · rfl

/-- C7: With one member, any plan of the registry and no extras, every money
field except the base is zero and the total is the plan price. -/
theorem single_member_plan_only (c : String) (plan : CatalogItem)
    (h : PLANS c = some plan) :
    calculate_total 1 c [] [] =
      Except.ok ⟨1, plan, [], [], plan.price_usd, 0, 0, 0, plan.price_usd, []⟩ := by
  unfold PLANS at h
  split_ifs at h with h1 h2 h3
  · injection h with h; subst h; subst h1; rfl
  · injection h with h; subst h; subst h2; rfl
  · injection h with h; subst h; subst h3; rfl

/-- Witness for C7 at the "basic" plan: base 60, total 60. -/
theorem single_member_plan_only_witness :
    PLANS "basic" = some ⟨"basic", "Basic", 60, true, false⟩ ∧
      calculate_total 1 "basic" [] [] =
        Except.ok ⟨1, ⟨"basic", "Basic", 60, true, false⟩, [], [], 60, 0, 0, 0, 60, []⟩ :=
  ⟨rfl, single_member_plan_only "basic" ⟨"basic", "Basic", 60, true, false⟩ rfl⟩

/-- C8: `calculate_total` is deterministic and stateless — its outcome depends
only on the four arguments, so equal inputs yield identical results. -/
theorem calculate_total_deterministic (m₁ m₂ : Int) (p₁ p₂ : String)
    (a₁ a₂ q₁ q₂ : List String)
    (hm : m₁ = m₂) (hp : p₁ = p₂) (ha : a₁ = a₂) (hq : q₁ = q₂) :
    calculate_total m₁ p₁ a₁ q₁ = calculate_total m₂ p₂ a₂ q₂ := by
  subst hm; subst hp; subst ha; subst hq; rfl

/-- Witness for C8 at one concrete repeated call. -/
theorem calculate_total_deterministic_witness :
    (2 : Int) = 2 ∧ "premium" = "premium" ∧ ([] : List String) = [] ∧
      (["exclusive"] : List String) = ["exclusive"] ∧
      calculate_total 2 "premium" [] ["exclusive"] =
        calculate_total 2 "premium" [] ["exclusive"] :=
  ⟨rfl, rfl, rfl, rfl,
    calculate_total_deterministic 2 2 "premium" "premium" [] [] ["exclusive"] ["exclusive"]
      rfl rfl rfl rfl⟩

/-- C10: The violation messages come in a fixed deterministic order: members
message first, then the plan message, then one block per deduplicated add-on
code in first-occurrence order, then the same for premium-feature codes. -/
theorem violation_message_order (m : Int) (p : String) (ac pc : List String) :
    validate_selection m p ac pc =
      members_errors m ++ plan_errors p
        ++ collect_errors addon_code_errors (dedupe_preserve_order ac)
        ++ collect_errors premium_code_errors (dedupe_preserve_order pc) :=
  validate_selection_decomp m p ac pc

end GymPricing

namespace GymPricing

/-- C1: On every selection that passes validation, `calculate_total` succeeds
and its fields follow the fixed pipeline under floor division: base total,
ten-percent group discount for two or more members, fifteen-percent premium
surcharge on the after-discount total when a premium feature is selected, the
special-offer step discount, and the final total; in particular two members on
the premium plan with the exclusive feature give 360/36/48/20/352. -/
theorem calculate_total_pipeline :
    (∀ (m : Int) (p : String) (ac pc : List String),
      validate_selection m p ac pc = [] →
      ∃ plan r, PLANS p = some plan ∧ calculate_total m p ac pc = Except.ok r ∧
        r.base_total_usd =
          m * (plan.price_usd
            + sum_prices (resolve_items ADDONS (dedupe_preserve_order ac))
            + sum_prices (resolve_items PREMIUM_FEATURES (dedupe_preserve_order pc))) ∧
        r.group_discount_usd =
          (if 2 ≤ m then Int.fdiv (r.base_total_usd * 10) 100 else 0) ∧
        r.premium_surcharge_usd =
          (if dedupe_preserve_order pc = [] then 0
           else Int.fdiv ((r.base_total_usd - r.group_discount_usd) * 15) 100) ∧
        r.special_offer_discount_usd =
          special_offer_discount
            (r.base_total_usd - r.group_discount_usd + r.premium_surcharge_usd) ∧
        r.total_usd = r.base_total_usd - r.group_discount_usd
          + r.premium_surcharge_usd - r.special_offer_discount_usd) ∧
    calculate_total 2 "premium" [] ["exclusive"] =
      Except.ok ⟨2, ⟨"premium", "Premium", 100, true, false⟩, [],
        [⟨"exclusive", "Exclusive facilities access", 80, true, true⟩],
        360, 36, 48, 20, 352, [group_note, premium_note, offer20_note]⟩ := by
  constructor
  · intro m p ac pc h
    obtain ⟨plan, hpl, _, heq⟩ := calculate_total_ok_of_valid h
    obtain ⟨_, _, _, hprems⟩ := validate_nil_facts h
    refine ⟨plan, _, hpl, heq, calc_result_base m plan _ _, calc_result_group m plan _ _,
      ?_, calc_result_special m plan _ _, calc_result_total m plan _ _⟩
    rw [calc_result_surcharge]
    exact if_congr (resolve_items_empty_iff hprems) rfl rfl
  · rfl

/-- Witness for C1 at two members, premium plan, exclusive feature. -/
theorem calculate_total_pipeline_witness :
    validate_selection 2 "premium" [] ["exclusive"] = [] ∧
      (∃ plan r, PLANS "premium" = some plan ∧
        calculate_total 2 "premium" [] ["exclusive"] = Except.ok r ∧
        r.base_total_usd =
          2 * (plan.price_usd
            + sum_prices (resolve_items ADDONS (dedupe_preserve_order []))
            + sum_prices (resolve_items PREMIUM_FEATURES (dedupe_preserve_order ["exclusive"]))) ∧
        r.group_discount_usd =
          (if 2 ≤ (2 : Int) then Int.fdiv (r.base_total_usd * 10) 100 else 0) ∧
        r.premium_surcharge_usd =
          (if dedupe_preserve_order ["exclusive"] = [] then 0
           else Int.fdiv ((r.base_total_usd - r.group_discount_usd) * 15) 100) ∧
        r.special_offer_discount_usd =
          special_offer_discount
            (r.base_total_usd - r.group_discount_usd + r.premium_surcharge_usd) ∧
        r.total_usd = r.base_total_usd - r.group_discount_usd
          + r.premium_surcharge_usd - r.special_offer_discount_usd) :=
  ⟨rfl, calculate_total_pipeline.1 2 "premium" [] ["exclusive"] rfl⟩

/-- C3: With the seed catalog, every selection that passes validation yields a
strictly positive final total, so the invalid-configuration branch is
unreachable. -/
theorem valid_selection_total_positive (m : Int) (p : String) (ac pc : List String)
    (h : validate_selection m p ac pc = []) :
    ∃ r, calculate_total m p ac pc = Except.ok r ∧ 1 ≤ r.total_usd := by
  obtain ⟨plan, hpl, _, heq⟩ := calculate_total_ok_of_valid h
  obtain ⟨hm, _, _, _⟩ := validate_nil_facts h
  exact ⟨_, heq,
    calc_result_total_pos hm (PLANS_price hpl) (addons_sum_nonneg _) (prems_sum_nonneg _)⟩

/-- Witness for C3 at one member on the basic plan. -/
theorem valid_selection_total_positive_witness :
    validate_selection 1 "basic" [] [] = [] ∧
      ∃ r, calculate_total 1 "basic" [] [] = Except.ok r ∧ 1 ≤ r.total_usd :=
  ⟨rfl, valid_selection_total_positive 1 "basic" [] [] rfl⟩

/-- C9: Every successfully returned result satisfies
total = base − group discount + surcharge − special offer, with all money
fields non-negative and a total of at least one dollar. -/
theorem result_arith_invariant (m : Int) (p : String) (ac pc : List String)
    (r : CalculationResult) (h : calculate_total m p ac pc = Except.ok r) :
    r.total_usd = r.base_total_usd - r.group_discount_usd + r.premium_surcharge_usd
        - r.special_offer_discount_usd ∧
      0 ≤ r.base_total_usd ∧ 0 ≤ r.group_discount_usd ∧ 0 ≤ r.premium_surcharge_usd ∧
      0 ≤ r.special_offer_discount_usd ∧ 1 ≤ r.total_usd := by
  obtain ⟨hv, plan, hpl, hr⟩ := calculate_total_ok_inv h
  obtain ⟨hm, _, _, _⟩ := validate_nil_facts hv
  subst hr
  obtain ⟨h1, h2, h3, h4⟩ :=
    calc_result_nonneg hm (PLANS_price hpl) (addons_sum_nonneg _) (prems_sum_nonneg _)
  exact ⟨calc_result_total m plan _ _, h1, h2, h3, h4,
    calc_result_total_pos hm (PLANS_price hpl) (addons_sum_nonneg _) (prems_sum_nonneg _)⟩

/-- Witness for C9 at one member on the basic plan. -/
theorem result_arith_invariant_witness :
    calculate_total 1 "basic" [] [] = Except.ok res_basic1 ∧
      (res_basic1.total_usd = res_basic1.base_total_usd - res_basic1.group_discount_usd
          + res_basic1.premium_surcharge_usd - res_basic1.special_offer_discount_usd ∧
        0 ≤ res_basic1.base_total_usd ∧ 0 ≤ res_basic1.group_discount_usd ∧
        0 ≤ res_basic1.premium_surcharge_usd ∧ 0 ≤ res_basic1.special_offer_discount_usd ∧
        1 ≤ res_basic1.total_usd) :=
  ⟨rfl, result_arith_invariant 1 "basic" [] [] res_basic1 rfl⟩

end GymPricing

namespace GymPricing

/-- C4: On every valid selection the result messages are exactly the group
note (iff two or more members), then the premium note (iff a premium feature
is selected), then the special-offer note (iff that discount is non-zero), in
that order; and under the seed catalog the first two conditions coincide with
the corresponding monetary effect being non-zero. -/
theorem valid_selection_messages (m : Int) (p : String) (ac pc : List String)
    (h : validate_selection m p ac pc = []) :
    ∃ r, calculate_total m p ac pc = Except.ok r ∧
      r.messages =
        (if 2 ≤ m then [group_note] else [])
          ++ (if dedupe_preserve_order pc = [] then [] else [premium_note])
          ++ (if r.special_offer_discount_usd = 20 then [offer20_note]
              else if r.special_offer_discount_usd = 50 then [offer50_note] else []) ∧
      (group_note ∈ r.messages ↔ 2 ≤ m) ∧
      (premium_note ∈ r.messages ↔ dedupe_preserve_order pc ≠ []) ∧
      ((offer20_note ∈ r.messages ∨ offer50_note ∈ r.messages) ↔
        r.special_offer_discount_usd ≠ 0) ∧
      (2 ≤ m ↔ r.group_discount_usd ≠ 0) ∧
      (dedupe_preserve_order pc ≠ [] ↔ r.premium_surcharge_usd ≠ 0) := by
  obtain ⟨plan, hpl, _, heq⟩ := calculate_total_ok_of_valid h
  obtain ⟨hm, _, _, hprems⟩ := validate_nil_facts h
  have hp60 := PLANS_price hpl
  set A := resolve_items ADDONS (dedupe_preserve_order ac) with hA
  set Q := resolve_items PREMIUM_FEATURES (dedupe_preserve_order pc) with hQ
  have ha0 : 0 ≤ sum_prices A := addons_sum_nonneg (dedupe_preserve_order ac)
  have hq0 : 0 ≤ sum_prices Q := prems_sum_nonneg (dedupe_preserve_order pc)
  have hiff : (Q.isEmpty = true) ↔ dedupe_preserve_order pc = [] :=
    resolve_items_empty_iff hprems
  have hmsg : (calc_result m plan A Q).messages =
      (if 2 ≤ m then [group_note] else [])
        ++ (if dedupe_preserve_order pc = [] then [] else [premium_note])
        ++ (if (calc_result m plan A Q).special_offer_discount_usd = 20 then [offer20_note]
            else if (calc_result m plan A Q).special_offer_discount_usd = 50 then
              [offer50_note]
            else []) := by
    rw [calc_result_messages]
    have hmid : (if Q.isEmpty then ([] : List String) else [premium_note]) =
        (if dedupe_preserve_order pc = [] then [] else [premium_note]) :=
      if_congr hiff rfl rfl
    rw [hmid]
  have hd : (calc_result m plan A Q).special_offer_discount_usd = 0 ∨
      (calc_result m plan A Q).special_offer_discount_usd = 20 ∨
      (calc_result m plan A Q).special_offer_discount_usd = 50 := by
    rw [calc_result_special]
    exact special_offer_discount_cases _
  have hgroup : 2 ≤ m ↔ (calc_result m plan A Q).group_discount_usd ≠ 0 := by
    constructor
    · intro h2
      have := calc_result_group_pos h2 hp60 ha0 hq0
      omega
    · intro hne
      by_contra h2
      rw [calc_result_group, if_neg h2] at hne
      exact hne rfl
  have hsur : dedupe_preserve_order pc ≠ [] ↔
      (calc_result m plan A Q).premium_surcharge_usd ≠ 0 := by
    constructor
    · intro hne
      have hQne : Q.isEmpty = false := by
        cases hQe : Q.isEmpty
        · rfl
        · exact absurd (hiff.mp hQe) hne
      have hQne2 : Q ≠ [] := by
        intro hnil
        exact hne (hiff.mp (by rw [hnil]; rfl))
      have hq80 : 80 ≤ sum_prices Q :=
        sum_prices_lb_of_ne_nil (by omega)
          (resolve_items_price_lb (fun _ _ hx => PREMIUM_price hx)) hQne2
      have := calc_result_surcharge_pos hm hp60 ha0 hq80 hQne
      omega
    · intro hne hc
      rw [calc_result_surcharge, if_pos (hiff.mpr hc)] at hne
      exact hne rfl
  refine ⟨_, heq, hmsg, ?_, ?_, ?_, hgroup, hsur⟩
  · rw [hmsg]
    by_cases h2 : 2 ≤ m <;> by_cases hq : dedupe_preserve_order pc = [] <;>
      rcases hd with hd | hd | hd <;> simp [h2, hq, hd] <;> decide
  · rw [hmsg]
    by_cases h2 : 2 ≤ m <;> by_cases hq : dedupe_preserve_order pc = [] <;>
      rcases hd with hd | hd | hd <;> simp [h2, hq, hd] <;> decide
  · rw [hmsg]
    by_cases h2 : 2 ≤ m <;> by_cases hq : dedupe_preserve_order pc = [] <;>
      rcases hd with hd | hd | hd <;> simp [h2, hq, hd] <;> decide

end GymPricing

namespace GymPricing

/-- Witness for C4 at two members, premium plan, exclusive feature: all three
notes fire, in order. -/
theorem valid_selection_messages_witness :
    validate_selection 2 "premium" [] ["exclusive"] = [] ∧
      ∃ r, calculate_total 2 "premium" [] ["exclusive"] = Except.ok r ∧
        r.messages =
          (if 2 ≤ (2 : Int) then [group_note] else [])
            ++ (if dedupe_preserve_order ["exclusive"] = [] then [] else [premium_note])
            ++ (if r.special_offer_discount_usd = 20 then [offer20_note]
                else if r.special_offer_discount_usd = 50 then [offer50_note] else []) ∧
        (group_note ∈ r.messages ↔ 2 ≤ (2 : Int)) ∧
        (premium_note ∈ r.messages ↔ dedupe_preserve_order ["exclusive"] ≠ []) ∧
        ((offer20_note ∈ r.messages ∨ offer50_note ∈ r.messages) ↔
          r.special_offer_discount_usd ≠ 0) ∧
        (2 ≤ (2 : Int) ↔ r.group_discount_usd ≠ 0) ∧
        (dedupe_preserve_order ["exclusive"] ≠ [] ↔ r.premium_surcharge_usd ≠ 0) :=
  ⟨rfl, valid_selection_messages 2 "premium" [] ["exclusive"] rfl⟩

end GymPricing
